import Mathlib

/-!
Verification of the PostFix interpreter (src/postfix): the command AST, the
operand stack, the built-in evaluator, program invocation and the top-level
program registry, shallowly embedded from the Rust source.

Conventions of the embedding:
* Rust `i128` values are carried as `Int`; where the source can overflow we
  wrap explicitly into the i128 range (two's-complement wrapping, the
  behavior of a build with overflow checks disabled; `add`/`sub`/`mul`
  overflow is never exercised by the claims below).
* Rust `usize` casts (`as usize`) truncate two's-complement to 64 bits (the
  host word size); this cast never panics in Rust in any profile.
* A Rust panic (process-level crash, e.g. division by zero) is modelled by
  the dedicated result `Res.crash`; fallible functions return `Res`.
* The operand stack `Stack(Vec<StackValue>)` pushes and pops at the END of
  the Vec.  We represent it as a `List StackValue` whose HEAD is the top of
  the stack, i.e. the Lean list is the reverse of the Rust Vec.
-/

/-- BuiltIn opcodes, src/postfix read module (mirrored in parse.rs). -/
inductive BuiltIn where
  | Add | Div | Eq | Exec | Gt | Lt | Mul | Nget | Pop | Rem | Sel | Sub | Swap
deriving DecidableEq

/-- Command AST, src/postfix read module (mirrored in parse.rs). -/
inductive Command where
  | ExecutableSequence : List Command → Command
  | Integer : Int → Command
  | BuiltIn : BuiltIn → Command

mutual

/-- Boolean equality on the nested `Command` tree (used to build the
decidable-equality instance below). -/
def Command.beq : Command → Command → Bool
  | .ExecutableSequence a, .ExecutableSequence b => Command.beqList a b
  | .Integer a, .Integer b => decide (a = b)
  | .BuiltIn a, .BuiltIn b => decide (a = b)
  | _, _ => false

/-- Boolean equality on lists of commands. -/
def Command.beqList : List Command → List Command → Bool
  | [], [] => true
  | a :: as, b :: bs => Command.beq a b && Command.beqList as bs
  | _, _ => false

end

mutual

theorem Command.beq_iff : ∀ a b : Command, Command.beq a b = true ↔ a = b
  | .ExecutableSequence a, .ExecutableSequence b => by
    simp [Command.beq, Command.beqList_iff a b]
  | .ExecutableSequence _, .Integer _ => by simp [Command.beq]
  | .ExecutableSequence _, .BuiltIn _ => by simp [Command.beq]
  | .Integer _, .ExecutableSequence _ => by simp [Command.beq]
  | .Integer a, .Integer b => by simp [Command.beq]
  | .Integer _, .BuiltIn _ => by simp [Command.beq]
  | .BuiltIn _, .ExecutableSequence _ => by simp [Command.beq]
  | .BuiltIn _, .Integer _ => by simp [Command.beq]
  | .BuiltIn a, .BuiltIn b => by simp [Command.beq]

theorem Command.beqList_iff : ∀ as bs : List Command, Command.beqList as bs = true ↔ as = bs
  | [], [] => by simp [Command.beqList]
  | [], _ :: _ => by simp [Command.beqList]
  | _ :: _, [] => by simp [Command.beqList]
  | a :: as, b :: bs => by
    simp [Command.beqList, Bool.and_eq_true, Command.beq_iff a b, Command.beqList_iff as bs]

end

instance : DecidableEq Command := fun a b => decidable_of_iff _ (Command.beq_iff a b)

/-- Runtime stack values, src/postfix/src/program.rs `StackValue`. -/
inductive StackValue where
  | ExecutableSequence : List Command → StackValue
  | Integer : Int → StackValue
deriving DecidableEq

/-- Evaluation errors, src/postfix/src/program.rs `Error`. -/
inductive Program.Error where
  | FinalValueNotAnInteger
  | NotEnoughValues
  | NotANumber
  | NotAnExecutableSequence
deriving DecidableEq

/-- Result of running a piece of Rust code that may return an error of type
`ε` or abort the whole process with a panic (`crash`). -/
inductive Res (ε : Type) (α : Type) where
  | ok : α → Res ε α
  | err : ε → Res ε α
  | crash : Res ε α
deriving DecidableEq

def Res.bind : Res ε α → (α → Res ε β) → Res ε β
  | .ok a, f => f a
  | .err e, _ => .err e
  | .crash, _ => .crash

def Res.mapErr : Res ε α → (ε → ε2) → Res ε2 α
  | .ok a, _ => .ok a
  | .err e, f => .err (f e)
  | .crash, _ => .crash

/-- The stack of a running PostFix program; head of the list = top of the
stack (= the end of the `Vec` in `Stack(Vec<StackValue>)`). -/
abbrev Stack := List StackValue

open Program in
/-- Stack::pop: removes and returns the top value (`self.0.pop().ok_or(Error::NotEnoughValues)`). -/
def Stack.pop : Stack → Res Error (StackValue × Stack)
  | [] => .err .NotEnoughValues
  | v :: rest => .ok (v, rest)

/-- Stack::push: `self.0.push(value)`. -/
def Stack.push (s : Stack) (value : StackValue) : Stack := value :: s

open Program in
/-- StackValue::assert_integer. -/
def StackValue.assert_integer : StackValue → Res Error Unit
  | .Integer _ => .ok ()
  | _ => .err .NotANumber

open Program in
/-- StackValue::into_integer. -/
def StackValue.into_integer : StackValue → Res Error Int
  | .Integer value => .ok value
  | _ => .err .NotANumber

open Program in
/-- StackValue::into_ex_seq. -/
def StackValue.into_ex_seq : StackValue → Res Error (List Command)
  | .ExecutableSequence inner => .ok inner
  | _ => .err .NotAnExecutableSequence

/-- Smallest i128 value. -/
def i128_min : Int := -(2 ^ 127)

/-- Two's-complement wrap of an integer into the i128 range. -/
def wrap128 (x : Int) : Int := (x + 2 ^ 127) % 2 ^ 128 - 2 ^ 127

/-- Rust `i128` addition (wrapping profile, see the file header). -/
def i128_add (a b : Int) : Res Program.Error Int := .ok (wrap128 (a + b))

/-- Rust `i128` subtraction (wrapping profile, see the file header). -/
def i128_sub (a b : Int) : Res Program.Error Int := .ok (wrap128 (a - b))

/-- Rust `i128` multiplication (wrapping profile, see the file header). -/
def i128_mul (a b : Int) : Res Program.Error Int := .ok (wrap128 (a * b))

/-- Rust `i128` division: truncating; panics (in every build profile) on a
zero divisor and on the overflowing case `i128::MIN / -1`. -/
def i128_div (a b : Int) : Res Program.Error Int :=
  if b = 0 then .crash
  else if a = i128_min ∧ b = -1 then .crash
  else .ok (Int.tdiv a b)

/-- Rust `i128` remainder: sign of the dividend; panics (in every build
profile) on a zero divisor and on the overflowing case `i128::MIN % -1`. -/
def i128_rem (a b : Int) : Res Program.Error Int :=
  if b = 0 then .crash
  else if a = i128_min ∧ b = -1 then .crash
  else .ok (Int.tmod a b)

/-- Rust `as usize` cast of an i128: two's-complement truncation to the
64-bit host word (never a panic). -/
def usize_cast (i : Int) : Nat := (i % 2 ^ 64).toNat

/-- Rust `usize` subtraction under the wrapping (overflow-checks-off)
profile; a build with overflow checks would panic on underflow instead
(see the comments at `Stack.nget`). -/
def usize_sub (a b : Nat) : Nat := (((a : Int) - (b : Int)) % 2 ^ 64).toNat

/-- Stack::swap: pop v1, pop v2, push v1, push v2. -/
def Stack.swap (s : Stack) : Res Program.Error Stack :=
  Res.bind s.pop fun p1 =>
  Res.bind p1.2.pop fun p2 =>
  .ok ((p2.2.push p1.1).push p2.1)

/-- Stack::nget: pop the index operand (must be an Integer), then fetch
`self.0.get(len - vindex as usize)` — an index from the BOTTOM of the Vec,
hence `List.get?` on the reversed list here — assert the fetched value is an
Integer and push a copy of it.  The cast `vindex as usize` wraps modulo
2^64, and the subtraction `len - vindex as usize` is modelled with the
wrapping profile (a checked build would panic when `vindex as usize > len`). -/
def Stack.nget (s : Stack) : Res Program.Error Stack :=
  Res.bind s.pop fun p =>
  Res.bind p.1.into_integer fun vindex =>
  match (p.2.reverse).get? (usize_sub p.2.length (usize_cast vindex)) with
  | none => .err .NotEnoughValues
  | some vi =>
    Res.bind vi.assert_integer fun _ => .ok (p.2.push vi)

/-- Body of the `arith_op!` macro of program.rs: pop v1 and v2 (both must be
Integers) and push `v2 <op> v1`. -/
def arith_op (s : Stack) (op : Int → Int → Res Program.Error Int) : Res Program.Error Stack :=
  Res.bind s.pop fun p1 =>
  Res.bind p1.1.into_integer fun v1 =>
  Res.bind p1.2.pop fun p2 =>
  Res.bind p2.1.into_integer fun v2 =>
  Res.bind (op v2 v1) fun r =>
  .ok (p2.2.push (StackValue.Integer r))

/-- Body of the `bool_op!` macro of program.rs: pop v1 and v2 (both must be
Integers) and push 1 if `v2 <cmp> v1` else 0. -/
def bool_op (s : Stack) (cmp : Int → Int → Bool) : Res Program.Error Stack :=
  Res.bind s.pop fun p1 =>
  Res.bind p1.1.into_integer fun v1 =>
  Res.bind p1.2.pop fun p2 =>
  Res.bind p2.1.into_integer fun v2 =>
  .ok (p2.2.push (StackValue.Integer (if cmp v2 v1 then 1 else 0)))

/-- The non-Exec arms of Program::apply_builtin, translated arm by arm from
program.rs.  The Exec arm recurses into the command fold and is therefore
supplied separately (`Program.apply_builtin` below); the placeholder result
here is never consulted. -/
def apply_builtin_nx (s : Stack) (builtin : BuiltIn) : Res Program.Error Stack :=
  match builtin with
  | .Add => arith_op s i128_add
  | .Sub => arith_op s i128_sub
  | .Mul => arith_op s i128_mul
  | .Div => arith_op s i128_div
  | .Rem => arith_op s i128_rem
  | .Eq => bool_op s (fun v2 v1 => v2 = v1)
  | .Gt => bool_op s (fun v2 v1 => v2 > v1)
  | .Lt => bool_op s (fun v2 v1 => v2 < v1)
  | .Pop => Res.bind s.pop fun p => .ok p.2
  | .Swap => s.swap
  | .Sel =>
    Res.bind s.pop fun p1 =>
    Res.bind p1.2.pop fun p2 =>
    Res.bind p2.2.pop fun p3 =>
    Res.bind p3.1.into_integer fun v3 =>
    .ok (if v3 = 0 then p3.2.push p1.1 else p3.2.push p2.1)
  | .Nget => s.nget
  | .Exec => .crash

/-! ### Termination measure for the evaluator

PostFix evaluation terminates: `nget` only duplicates Integers (never a
quoted sequence), so the total number of commands stored on the stack plus
the commands still to run strictly decreases at every step.  The measure
below funds the well-founded definition of the machine `run`. -/

mutual

/-- Size of one command (every command counts at least 1). -/
def Command.size : Command → Nat
  | .Integer _ => 1
  | .BuiltIn _ => 1
  | .ExecutableSequence inner => 1 + Command.sizeList inner

/-- Total size of a command list. -/
def Command.sizeList : List Command → Nat
  | [] => 0
  | c :: rest => Command.size c + Command.sizeList rest

end

/-- Size of a runtime value: the commands it carries. -/
def StackValue.size : StackValue → Nat
  | .Integer _ => 0
  | .ExecutableSequence inner => Command.sizeList inner

/-- Total size of the commands held on the stack. -/
def Stack.size : Stack → Nat
  | [] => 0
  | v :: rest => StackValue.size v + Stack.size rest

theorem Command.sizeList_append (as bs : List Command) :
    Command.sizeList (as ++ bs) = Command.sizeList as + Command.sizeList bs := by
  induction as with
  | nil => simp [Command.sizeList]
  | cons a as ih => simp [Command.sizeList, ih]; omega

theorem arith_op_size_le (s s2 : Stack) (op : Int → Int → Res Program.Error Int)
    (h : arith_op s op = .ok s2) : Stack.size s2 ≤ Stack.size s := by
  match s with
  | [] => simp [arith_op, Stack.pop, Res.bind] at h
  | v1 :: s1 =>
    match v1 with
    | .ExecutableSequence _ => simp [arith_op, Stack.pop, Res.bind, StackValue.into_integer] at h
    | .Integer n1 =>
      match s1 with
      | [] => simp [arith_op, Stack.pop, Res.bind, StackValue.into_integer] at h
      | v2 :: s2' =>
        match v2 with
        | .ExecutableSequence _ =>
          simp [arith_op, Stack.pop, Res.bind, StackValue.into_integer] at h
        | .Integer n2 =>
          simp only [arith_op, Stack.pop, Res.bind, StackValue.into_integer] at h
          match hop : op n2 n1 with
          | .ok r =>
            rw [hop] at h
            simp only [Res.bind] at h
            cases h
            simp [Stack.push, Stack.size, StackValue.size]
          | .err e => rw [hop] at h; simp [Res.bind] at h
          | .crash => rw [hop] at h; simp [Res.bind] at h

theorem bool_op_size_le (s s2 : Stack) (cmp : Int → Int → Bool)
    (h : bool_op s cmp = .ok s2) : Stack.size s2 ≤ Stack.size s := by
  match s with
  | [] => simp [bool_op, Stack.pop, Res.bind] at h
  | v1 :: s1 =>
    match v1 with
    | .ExecutableSequence _ => simp [bool_op, Stack.pop, Res.bind, StackValue.into_integer] at h
    | .Integer n1 =>
      match s1 with
      | [] => simp [bool_op, Stack.pop, Res.bind, StackValue.into_integer] at h
      | v2 :: s2' =>
        match v2 with
        | .ExecutableSequence _ =>
          simp [bool_op, Stack.pop, Res.bind, StackValue.into_integer] at h
        | .Integer n2 =>
          simp only [bool_op, Stack.pop, Res.bind, StackValue.into_integer] at h
          cases h
          simp [Stack.push, Stack.size, StackValue.size]

theorem nget_size_le (s s2 : Stack) (h : Stack.nget s = .ok s2) :
    Stack.size s2 ≤ Stack.size s := by
  match s with
  | [] => simp [Stack.nget, Stack.pop, Res.bind] at h
  | v :: s1 =>
    match v with
    | .ExecutableSequence _ =>
      simp [Stack.nget, Stack.pop, Res.bind, StackValue.into_integer] at h
    | .Integer vindex =>
      simp only [Stack.nget, Stack.pop, Res.bind, StackValue.into_integer] at h
      match hg : (s1.reverse).get? (usize_sub s1.length (usize_cast vindex)) with
      | none => rw [hg] at h; simp at h
      | some vi =>
        rw [hg] at h
        match vi with
        | .ExecutableSequence _ =>
          simp [Res.bind, StackValue.assert_integer] at h
        | .Integer m =>
          simp only [Res.bind, StackValue.assert_integer] at h
          cases h
          simp [Stack.push, Stack.size, StackValue.size]

theorem apply_builtin_nx_size_le (s s2 : Stack) (b : BuiltIn)
    (h : apply_builtin_nx s b = .ok s2) : Stack.size s2 ≤ Stack.size s := by
  cases b with
  | Add => exact arith_op_size_le _ _ _ h
  | Sub => exact arith_op_size_le _ _ _ h
  | Mul => exact arith_op_size_le _ _ _ h
  | Div => exact arith_op_size_le _ _ _ h
  | Rem => exact arith_op_size_le _ _ _ h
  | Eq => exact bool_op_size_le _ _ _ h
  | Gt => exact bool_op_size_le _ _ _ h
  | Lt => exact bool_op_size_le _ _ _ h
  | Nget => exact nget_size_le _ _ h
  | Exec => simp [apply_builtin_nx] at h
  | Pop =>
    match s with
    | [] => simp [apply_builtin_nx, Stack.pop, Res.bind] at h
    | v :: s1 =>
      simp only [apply_builtin_nx, Stack.pop, Res.bind] at h
      cases h
      simp [Stack.size]
  | Swap =>
    match s with
    | [] => simp [apply_builtin_nx, Stack.swap, Stack.pop, Res.bind] at h
    | [v1] => simp [apply_builtin_nx, Stack.swap, Stack.pop, Res.bind] at h
    | v1 :: v2 :: s1 =>
      simp only [apply_builtin_nx, Stack.swap, Stack.pop, Res.bind] at h
      cases h
      simp [Stack.push, Stack.size]
      omega
  | Sel =>
    match s with
    | [] => simp [apply_builtin_nx, Stack.pop, Res.bind] at h
    | [v1] => simp [apply_builtin_nx, Stack.pop, Res.bind] at h
    | [v1, v2] => simp [apply_builtin_nx, Stack.pop, Res.bind] at h
    | v1 :: v2 :: v3 :: s1 =>
      match v3 with
      | .ExecutableSequence _ =>
        simp [apply_builtin_nx, Stack.pop, Res.bind, StackValue.into_integer] at h
      | .Integer n3 =>
        simp only [apply_builtin_nx, Stack.pop, Res.bind, StackValue.into_integer] at h
        cases h
        by_cases h0 : n3 = 0 <;> simp [h0, Stack.push, Stack.size, StackValue.size]

/-- The command-fold machine.  `run s cmds` executes `cmds` (with an
explicit, flattened control stack for `exec`) over the operand stack `s`.
The source expresses this as `commands.iter().try_fold(stack,
Program::apply_command)` with the Exec arm recursively invoking the same
fold on the popped sequence; that literal shape is recovered as `evaluate`
below together with the theorem `evaluate_eq_run`. -/
def run (s : Stack) (cmds : List Command) : Res Program.Error Stack :=
  match s, cmds with
  | s, [] => .ok s
  | s, .Integer i :: rest => run (StackValue.Integer i :: s) rest
  | s, .ExecutableSequence inner :: rest => run (StackValue.ExecutableSequence inner :: s) rest
  | s, .BuiltIn .Exec :: rest =>
    match s with
    | [] => .err .NotEnoughValues
    | .Integer _ :: _ => .err .NotAnExecutableSequence
    | .ExecutableSequence inner :: s2 => run s2 (inner ++ rest)
  | s, .BuiltIn b :: rest =>
    match h : apply_builtin_nx s b with
    | .ok s2 => run s2 rest
    | .err e => .err e
    | .crash => .crash
termination_by Stack.size s + Command.sizeList cmds
decreasing_by
  all_goals simp only [Stack.size, StackValue.size, Command.sizeList, Command.size,
    Command.sizeList_append]
  · omega
  · omega
  · omega
  · have := apply_builtin_nx_size_le _ _ _ h
    omega

/-- Stack::exec: `commands.iter().try_fold(self, Program::apply_command)`.
Defined through the machine `run`; `evaluate_eq_run` below shows this is
the same fold as `evaluate`. -/
def Stack.exec (s : Stack) (commands : List Command) : Res Program.Error Stack :=
  run s commands

/-- Program::apply_builtin, program.rs.  The twelve non-recursive arms live
in `apply_builtin_nx`; the Exec arm is the source's
`let top = stack.pop()?; stack.exec(top.into_ex_seq()?)`. -/
def Program.apply_builtin (s : Stack) (builtin : BuiltIn) : Res Program.Error Stack :=
  match builtin with
  | .Exec =>
    Res.bind s.pop fun top =>
    Res.bind top.1.into_ex_seq fun inner =>
    Stack.exec top.2 inner
  | b => apply_builtin_nx s b

/-- Program::apply_command, program.rs. -/
def Program.apply_command (s : Stack) (command : Command) : Res Program.Error Stack :=
  match command with
  | .Integer inner => .ok (s.push (StackValue.Integer inner))
  | .ExecutableSequence inner => .ok (s.push (StackValue.ExecutableSequence inner))
  | .BuiltIn builtin => Program.apply_builtin s builtin

/-- The command fold `commands.iter().try_fold(stack, Program::apply_command)`
used both by Program::apply and by Stack::exec. -/
def evaluate (s : Stack) (commands : List Command) : Res Program.Error Stack :=
  match commands with
  | [] => .ok s
  | c :: rest => Res.bind (Program.apply_command s c) fun s2 => evaluate s2 rest

theorem run_nil (s : Stack) : run s [] = .ok s := by
  simp [run]

theorem run_integer (s : Stack) (i : Int) (rest : List Command) :
    run s (.Integer i :: rest) = run (StackValue.Integer i :: s) rest := by
  simp [run]

theorem run_exseq (s : Stack) (inner : List Command) (rest : List Command) :
    run s (.ExecutableSequence inner :: rest)
      = run (StackValue.ExecutableSequence inner :: s) rest := by
  simp [run]

theorem run_exec_nil (rest : List Command) :
    run [] (.BuiltIn .Exec :: rest) = .err .NotEnoughValues := by
  simp [run]

theorem run_exec_int (n : Int) (s : Stack) (rest : List Command) :
    run (StackValue.Integer n :: s) (.BuiltIn .Exec :: rest)
      = .err .NotAnExecutableSequence := by
  simp [run]

theorem run_exec_seq (inner : List Command) (s : Stack) (rest : List Command) :
    run (StackValue.ExecutableSequence inner :: s) (.BuiltIn .Exec :: rest)
      = run s (inner ++ rest) := by
  simp [run]

theorem run_builtin (s : Stack) (b : BuiltIn) (rest : List Command) (hb : b ≠ .Exec) :
    run s (.BuiltIn b :: rest)
      = Res.bind (apply_builtin_nx s b) fun s2 => run s2 rest := by
  cases b <;>
    first
      | exact absurd rfl hb
      | (simp only [run]; split <;> simp [Res.bind, *])

theorem apply_builtin_ne_exec (s : Stack) (b : BuiltIn) (hb : b ≠ .Exec) :
    Program.apply_builtin s b = apply_builtin_nx s b := by
  cases b <;> first | exact absurd rfl hb | rfl

theorem run_append (s : Stack) (as bs : List Command) :
    run s (as ++ bs) = Res.bind (run s as) fun t => run t bs := by
  generalize hn : Stack.size s + Command.sizeList as = n
  induction n using Nat.strong_induction_on generalizing s as with
  | _ n ih =>
  cases as with
  | nil => simp [run_nil, Res.bind]
  | cons c rest =>
    cases c with
    | Integer i =>
      rw [List.cons_append, run_integer, run_integer]
      exact ih (Stack.size (StackValue.Integer i :: s) + Command.sizeList rest)
        (by simp [Stack.size, StackValue.size, Command.sizeList, Command.size] at hn ⊢; omega)
        _ _ rfl
    | ExecutableSequence inner =>
      rw [List.cons_append, run_exseq, run_exseq]
      exact ih (Stack.size (StackValue.ExecutableSequence inner :: s) + Command.sizeList rest)
        (by simp [Stack.size, StackValue.size, Command.sizeList, Command.size] at hn ⊢; omega)
        _ _ rfl
    | BuiltIn b =>
      by_cases hb : b = BuiltIn.Exec
      · subst hb
        match s with
        | [] => rw [List.cons_append, run_exec_nil, run_exec_nil]; rfl
        | StackValue.Integer m :: s2 =>
          rw [List.cons_append, run_exec_int, run_exec_int]; rfl
        | StackValue.ExecutableSequence inner :: s2 =>
          rw [List.cons_append, run_exec_seq, run_exec_seq, ← List.append_assoc]
          exact ih (Stack.size s2 + Command.sizeList (inner ++ rest))
            (by
              simp [Stack.size, StackValue.size, Command.sizeList, Command.size,
                Command.sizeList_append] at hn ⊢
              omega)
            _ _ rfl
      · rw [List.cons_append, run_builtin _ _ _ hb, run_builtin _ _ _ hb]
        match hx : apply_builtin_nx s b with
        | .ok s2 =>
          simp only [Res.bind]
          have hsz := apply_builtin_nx_size_le _ _ _ hx
          exact ih (Stack.size s2 + Command.sizeList rest)
            (by simp [Command.sizeList, Command.size] at hn ⊢; omega)
            _ _ rfl
        | .err e => simp only [Res.bind]
        | .crash => simp only [Res.bind]

theorem evaluate_eq_run (s : Stack) (cmds : List Command) :
    evaluate s cmds = run s cmds := by
  induction cmds generalizing s with
  | nil => simp [evaluate, run_nil]
  | cons c rest ih =>
    cases c with
    | Integer i =>
      simp [evaluate, Program.apply_command, Stack.push, Res.bind, run_integer, ih]
    | ExecutableSequence inner =>
      simp [evaluate, Program.apply_command, Stack.push, Res.bind, run_exseq, ih]
    | BuiltIn b =>
      by_cases hb : b = BuiltIn.Exec
      · subst hb
        match s with
        | [] =>
          simp [evaluate, Program.apply_command, Program.apply_builtin, Stack.pop,
            Res.bind, run_exec_nil]
        | StackValue.Integer m :: s2 =>
          simp [evaluate, Program.apply_command, Program.apply_builtin, Stack.pop,
            StackValue.into_ex_seq, Res.bind, run_exec_int]
        | StackValue.ExecutableSequence inner :: s2 =>
          simp only [evaluate, Program.apply_command, Program.apply_builtin, Stack.pop,
            StackValue.into_ex_seq, Stack.exec, Res.bind, run_exec_seq, run_append]
          cases hx : run s2 inner <;> simp [Res.bind, ih]
      · rw [show evaluate s (Command.BuiltIn b :: rest)
              = Res.bind (Program.apply_builtin s b) (fun s2 => evaluate s2 rest) from rfl,
            apply_builtin_ne_exec _ _ hb, run_builtin _ _ _ hb]
        cases hx : apply_builtin_nx s b <;> simp [Res.bind, ih]

/-! ### The s-expression boundary and the top-level registry -/

/-- Placeholder for an `f64` payload (dcpl `SExp::Float`): the PostFix core
only ever rejects or echoes a float literal, never computes with it, so the
payload is carried abstractly. -/
structure F64 where
  bits : Nat
deriving DecidableEq

/-- Generic symbolic expressions, dcpl crate (src/src/lib.rs). -/
inductive SExp where
  | List : List SExp → SExp
  | Float : F64 → SExp
  | Integer : Int → SExp
  | String : String → SExp
  | Symbol : String → SExp

/-- Alias for the core string type, usable inside the `SExp` namespace where
the constructor name `String` shadows it. -/
abbrev StringT := String

/-- Alias for the core list type, usable inside the `SExp` namespace where
the constructor name `List` shadows it. -/
abbrev ListT := List

/-- SExp::into_symbol. -/
def SExp.into_symbol : SExp → Option StringT
  | .Symbol name => some name
  | _ => none

/-- SExp::into_integer. -/
def SExp.into_integer : SExp → Option Int
  | .Integer value => some value
  | _ => none

/-- Translation errors of the read module (`Error` there, imported as
`ParseError` by top_level.rs; mirrored in parse.rs). -/
inductive ParseError where
  | UnknownBuiltin : String → ParseError
  | UsingFloat
  | UsingString
deriving DecidableEq

/-- Modelled from the spec: `BuiltIn::read` of the crate's `read` module,
which is not under src/; per spec §4.1 a symbol must name one of the fixed
built-ins, which coincides with the in-repo parse.rs `BuiltIn::eval`,
translated here. -/
def BuiltIn.read (name : String) : Res ParseError BuiltIn :=
  match name with
  | "add" => .ok .Add
  | "div" => .ok .Div
  | "eq" => .ok .Eq
  | "exec" => .ok .Exec
  | "gt" => .ok .Gt
  | "lt" => .ok .Lt
  | "mul" => .ok .Mul
  | "nget" => .ok .Nget
  | "pop" => .ok .Pop
  | "rem" => .ok .Rem
  | "sel" => .ok .Sel
  | "sub" => .ok .Sub
  | "swap" => .ok .Swap
  | _ => .err (.UnknownBuiltin name)

mutual

/-- Modelled from the spec: `Command::read` of the crate's `read` module,
which is not under src/; per spec §4.1 (and identically the in-repo
parse.rs `Command::eval`): integers become literals, symbols must name a
built-in, lists translate recursively, floats and strings are rejected. -/
def Command.read : SExp → Res ParseError Command
  | .List exprs => Res.bind (Command.readList exprs) fun inner => .ok (.ExecutableSequence inner)
  | .Integer val => .ok (.Integer val)
  | .Symbol name => Res.bind (BuiltIn.read name) fun b => .ok (.BuiltIn b)
  | .Float _ => .err .UsingFloat
  | .String _ => .err .UsingString

/-- Collecting translation over children (`eval_ex_seq` / the
`.map(Command::read).collect::<Result<...>>()` idiom): first failure wins. -/
def Command.readList : List SExp → Res ParseError (List Command)
  | [] => .ok []
  | e :: rest =>
    Res.bind (Command.read e) fun c =>
    Res.bind (Command.readList rest) fun cs => .ok (c :: cs)

end

/-- Programs: arity plus command body (program.rs `Program`). -/
structure Program where
  num_args : Nat
  commands : List Command
deriving DecidableEq

/-- Program::new. -/
def Program.new (num_args : Nat) (commands : List Command) : Program :=
  { num_args := num_args, commands := commands }

/-- Top-level errors, top_level.rs `Error`. -/
inductive TopLevel.Error where
  | IllegalArgumentType : SExp → TopLevel.Error
  | NotASymbol
  | NotAnInteger
  | NotEnoughArgs : String → TopLevel.Error
  | ProgramNotFound : String → TopLevel.Error
  | WrongNumberOfArgs : Nat → Nat → TopLevel.Error
  | ReadError : ParseError → TopLevel.Error
  | ProgramError : Program.Error → TopLevel.Error

/-- The initial operand stack of Program::apply:
`args.into_iter().rev().map(StackValue::from).collect()` — the reversed
arguments are pushed one by one onto an empty Vec; in our head-is-top list
representation the collected Vec is the reverse of that push order. -/
def seedStack (args : List Int) : Stack :=
  (args.reverse.map StackValue.Integer).reverse

/-- The tail of Program::apply after the body fold: pop exactly one value
(`final_stack.pop()?`, errors converted through `From<Error>`), return it
if it is an Integer, fail with FinalValueNotAnInteger otherwise. -/
def finish_apply (folded : Res Program.Error Stack) : Res TopLevel.Error Int :=
  Res.bind (folded.mapErr TopLevel.Error.ProgramError) fun final_stack =>
  Res.bind ((Stack.pop final_stack).mapErr TopLevel.Error.ProgramError) fun popped =>
  match popped.1 with
  | .Integer value => .ok value
  | .ExecutableSequence _ => .err (.ProgramError .FinalValueNotAnInteger)

/-- Program::apply, program.rs lines 150-169: arity check, seed the stack
from the reversed arguments, fold the body, pop the single result. -/
def Program.apply (p : Program) (args : List Int) : Res TopLevel.Error Int :=
  if p.num_args ≠ args.length then
    .err (.WrongNumberOfArgs p.num_args args.length)
  else
    finish_apply (evaluate (seedStack args) p.commands)

/-- HashMap<String, Program> modelled as an association list with unique
keys; `insert` replaces any existing binding for the key (iteration order
is immaterial: every observation below goes through `Registry.get`). -/
def Registry.insert (r : List (String × Program)) (k : String) (v : Program) :
    List (String × Program) :=
  (k, v) :: r.filter fun p => p.1 ≠ k

/-- HashMap::get by key. -/
def Registry.get (r : List (String × Program)) (k : String) : Option Program :=
  (r.find? fun p => p.1 == k).map fun p => p.2

/-- The top level, top_level.rs: the name → program registry. -/
structure TopLevel where
  programs : List (String × Program)
deriving DecidableEq

/-- TopLevel::new, top_level.rs lines 21-32: seven arity-2 wrapper programs
around arithmetic and comparison built-ins (the `builtin_program!` macro). -/
def TopLevel.new : TopLevel :=
  let programs := Registry.insert [] ("add") (Program.new 2 [Command.BuiltIn BuiltIn.Add])
  let programs := Registry.insert programs ("sub") (Program.new 2 [Command.BuiltIn BuiltIn.Sub])
  let programs := Registry.insert programs ("mul") (Program.new 2 [Command.BuiltIn BuiltIn.Mul])
  let programs := Registry.insert programs ("div") (Program.new 2 [Command.BuiltIn BuiltIn.Div])
  let programs := Registry.insert programs ("eq") (Program.new 2 [Command.BuiltIn BuiltIn.Eq])
  let programs := Registry.insert programs ("lt") (Program.new 2 [Command.BuiltIn BuiltIn.Lt])
  let programs := Registry.insert programs ("gt") (Program.new 2 [Command.BuiltIn BuiltIn.Gt])
  { programs := programs }

/-- Top-level requests, top_level.rs `TopLevelCommand`. -/
inductive TopLevelCommand where
  | Def : String → Nat → List Command → TopLevelCommand
  | Call : String → List Int → TopLevelCommand

/-- The argument loop of TopLevelCommand::call: every argument must be an
integer literal; the first non-integer aborts with IllegalArgumentType. -/
def TopLevelCommand.callArgs : List SExp → Res TopLevel.Error (List Int)
  | [] => .ok []
  | SExp.Integer value :: rest =>
    Res.bind (TopLevelCommand.callArgs rest) fun args => .ok (value :: args)
  | expr :: _ => .err (.IllegalArgumentType expr)

/-- TopLevelCommand::call. -/
def TopLevelCommand.call (name : String) (exprs : List SExp) :
    Res TopLevel.Error TopLevelCommand :=
  Res.bind (TopLevelCommand.callArgs exprs) fun args => .ok (.Call name args)

/-- TopLevelCommand::def (named readDef here: `def` is a Lean keyword):
name symbol, arity integer (cast `as usize`, i.e. wrapped to 64 bits), then
the remaining expressions translated by Command::read, first failure
converted through `From<ParseError>`. -/
def TopLevelCommand.readDef (exprs : List SExp) : Res TopLevel.Error TopLevelCommand :=
  match exprs with
  | [] => .err (.NotEnoughArgs ("def"))
  | e1 :: rest1 =>
    match e1.into_symbol with
    | none => .err .NotASymbol
    | some name =>
      match rest1 with
      | [] => .err (.NotEnoughArgs ("def"))
      | e2 :: rest2 =>
        match e2.into_integer with
        | none => .err .NotAnInteger
        | some n =>
          match Command.readList rest2 with
          | .ok commands => .ok (.Def name (usize_cast n) commands)
          | .err e => .err (.ReadError e)
          | .crash => .crash

/-- TopLevelCommand::read_symbol: the reserved symbol `def` introduces a
definition, any other symbol a call. -/
def TopLevelCommand.read_symbol (name : String) (rest : List SExp) :
    Res TopLevel.Error TopLevelCommand :=
  if name = "def" then TopLevelCommand.readDef rest else TopLevelCommand.call name rest

/-- TopLevelCommand::read, top_level.rs: the first element of the list must
be a symbol. -/
def TopLevelCommand.read (exprs : List SExp) : Res TopLevel.Error TopLevelCommand :=
  match exprs with
  | [] => .err (.NotEnoughArgs ("()"))
  | first :: rest =>
    match first.into_symbol with
    | none => .err .NotASymbol
    | some name => TopLevelCommand.read_symbol name rest

/-- TopLevel::apply, top_level.rs lines 48-69.  The mutable receiver is made
explicit: the result carries the registry after the request.  A Def
compiles and inserts (overwriting same-named entries) and produces no
output; a Call looks the program up and invokes it, never touching the
registry. -/
def TopLevel.apply (t : TopLevel) (command : TopLevelCommand) :
    TopLevel × Res TopLevel.Error (Option String) :=
  match command with
  | .Def name num_args commands =>
    ({ programs := Registry.insert t.programs name (Program.new num_args commands) }, .ok none)
  | .Call name args =>
    match Registry.get t.programs name with
    | none => (t, .err (.ProgramNotFound name))
    | some program =>
      match Program.apply program args with
      | .ok result => (t, .ok (some (toString result)))
      | .err e => (t, .err e)
      | .crash => (t, .crash)

/-- Rendering of the float placeholder; the concrete text stands in for
Rust's float formatting and no claim depends on it. -/
def F64.display (x : F64) : String := "<float>"

mutual

/-- The Display impl for SExp (dcpl lib.rs): lists parenthesised with
space-separated children, strings quoted, atoms printed bare. -/
def SExp.display : SExp → StringT
  | .List exprs => "(" ++ SExp.displayList exprs ++ ")"
  | .Float val => val.display
  | .Integer val => toString val
  | .Symbol content => content
  | .String content => "\"" ++ content ++ "\""

/-- Children of a list, space-separated (the `sep` loop of the impl). -/
def SExp.displayList : ListT SExp → StringT
  | [] => ""
  | [e] => SExp.display e
  | e :: rest => SExp.display e ++ " " ++ SExp.displayList rest

end

mutual

/-- Debug formatting of SExp (`{:?}`, from `#[derive(Debug)]`); the exact
text approximates Rust's and no claim depends on it. -/
def SExp.debugFmt : SExp → StringT
  | .List exprs => "List([" ++ SExp.debugFmtList exprs ++ "])"
  | .Float val => "Float(" ++ val.display ++ ")"
  | .Integer val => "Integer(" ++ toString val ++ ")"
  | .Symbol content => "Symbol(\"" ++ content ++ "\")"
  | .String content => "String(\"" ++ content ++ "\")"

/-- Debug formatting of a list of SExps, comma-separated. -/
def SExp.debugFmtList : ListT SExp → StringT
  | [] => ""
  | [e] => SExp.debugFmt e
  | e :: rest => SExp.debugFmt e ++ ", " ++ SExp.debugFmtList rest

end

/-- Debug formatting of read-module errors (approximate, see SExp.debugFmt). -/
def ParseError.debugFmt : ParseError → String
  | .UnknownBuiltin name => "UnknownBuiltin(\"" ++ name ++ "\")"
  | .UsingFloat => "UsingFloat"
  | .UsingString => "UsingString"

/-- Debug formatting of evaluation errors (approximate, see SExp.debugFmt). -/
def Program.Error.debugFmt : Program.Error → String
  | .FinalValueNotAnInteger => "FinalValueNotAnInteger"
  | .NotEnoughValues => "NotEnoughValues"
  | .NotANumber => "NotANumber"
  | .NotAnExecutableSequence => "NotAnExecutableSequence"

/-- Debug formatting of top-level errors (approximate, see SExp.debugFmt). -/
def TopLevel.Error.debugFmt : TopLevel.Error → String
  | .IllegalArgumentType e => "IllegalArgumentType(" ++ e.debugFmt ++ ")"
  | .NotASymbol => "NotASymbol"
  | .NotAnInteger => "NotAnInteger"
  | .NotEnoughArgs context => "NotEnoughArgs(\"" ++ context ++ "\")"
  | .ProgramNotFound name => "ProgramNotFound(\"" ++ name ++ "\")"
  | .WrongNumberOfArgs expected actual =>
    "WrongNumberOfArgs \x7b expected: " ++ toString expected
      ++ ", actual: " ++ toString actual ++ " \x7d"
  | .ReadError e => "ReadError(" ++ e.debugFmt ++ ")"
  | .ProgramError e => "ProgramError(" ++ e.debugFmt ++ ")"

/-- TopLevel::interpret, top_level.rs lines 34-46.  A list request is read
and applied, with any returned error rendered to a string (`error: {:?}` /
`Error: {:?}`); a non-list request is echoed back via Display.  The `err`
constructor of the result is never produced: errors are turned into output
here, while `crash` models a panic propagating out of Program::apply. -/
def TopLevel.interpret (t : TopLevel) (sexp : SExp) :
    Res TopLevel.Error (TopLevel × Option String) :=
  match sexp with
  | .List exprs =>
    match TopLevelCommand.read exprs with
    | .ok cmd =>
      match TopLevel.apply t cmd with
      | (t2, .ok result) => .ok (t2, result)
      | (t2, .err e) => .ok (t2, some ("error: " ++ e.debugFmt))
      | (_, .crash) => .crash
    | .err e => .ok (t, some ("Error: " ++ e.debugFmt))
    | .crash => .crash
  | expr => .ok (t, some expr.display)

/-! ### Claims -/

/-- C1: the claim states that Div/Rem with a zero divisor (top value v1 = 0
over an Integer v2) returns a typed error value rather than crashing the
host.  The code instead evaluates `v2 / v1` (resp. `v2 % v1`) unguarded, a
Rust panic — a host-level crash, `Res.crash` in this model — at the failing
input: stack bottom→top [1, 0] with opcode Div (resp. Rem). -/
theorem div_rem_zero_divisor_crashes :
    Program.apply_builtin [StackValue.Integer 0, StackValue.Integer 1] BuiltIn.Div = Res.crash ∧
    Program.apply_builtin [StackValue.Integer 0, StackValue.Integer 1] BuiltIn.Rem = Res.crash :=
  ⟨rfl, rfl⟩

/-- C2: the claim states that every out-of-range index i (including every
i ≤ 0) makes Nget return NotEnoughValues.  At the failing input — stack
bottom→top [42, i] with i = 1 - 2^64 ≤ 0 — the cast `i as usize` wraps to
1, the computed position aliases the bottom element, and the call SUCCEEDS
with [42, 42] instead of returning NotEnoughValues. -/
theorem nget_wrapped_cast_aliases_bottom :
    Program.apply_builtin [StackValue.Integer (1 - 2 ^ 64), StackValue.Integer 42] BuiltIn.Nget
      = Res.ok [StackValue.Integer 42, StackValue.Integer 42] := by decide

/-- C3: calling a program of arity k with m ≠ k arguments yields exactly
WrongNumberOfArgs{expected: k, actual: m}, and the body fold is never
entered (the error branch of Program.apply precedes `evaluate`). -/
theorem apply_wrong_number_of_args (p : Program) (args : List Int)
    (h : args.length ≠ p.num_args) :
    Program.apply p args = Res.err (TopLevel.Error.WrongNumberOfArgs p.num_args args.length) := by
  unfold Program.apply
  rw [if_pos (Ne.symm h)]

/-- Witness for C3 at a concrete input: arity 2, one argument. -/
theorem apply_wrong_number_of_args_witness :
    ([5] : List Int).length ≠ (Program.new 2 [Command.BuiltIn BuiltIn.Sub]).num_args ∧
    Program.apply (Program.new 2 [Command.BuiltIn BuiltIn.Sub]) [5]
      = Res.err (TopLevel.Error.WrongNumberOfArgs 2 1) :=
  ⟨by decide, apply_wrong_number_of_args _ _ (by decide)⟩

/-- C4: with matching arity, Program.apply runs the body fold on the stack
seeded from the reversed arguments; in the head-is-top representation that
seed stack is exactly `args.map Integer`, whose head — the top of the
initial stack — is the FIRST supplied argument. -/
theorem apply_seeds_stack_reversed (p : Program) (args : List Int)
    (h : p.num_args = args.length) :
    Program.apply p args = finish_apply (evaluate (seedStack args) p.commands) ∧
    seedStack args = List.map StackValue.Integer args ∧
    (seedStack args).head? = Option.map StackValue.Integer args.head? := by
  refine ⟨?_, ?_, ?_⟩
  · unfold Program.apply
    rw [if_neg (fun hc => hc h)]
  · simp [seedStack, List.map_reverse]
  · simp [seedStack, List.map_reverse]

/-- Witness for C4 at a concrete input: arity 2, arguments [10, 20]. -/
theorem apply_seeds_stack_reversed_witness :
    (Program.new 2 []).num_args = ([10, 20] : List Int).length ∧
    (Program.apply (Program.new 2 []) [10, 20]
        = finish_apply (evaluate (seedStack [10, 20]) []) ∧
      seedStack ([10, 20] : List Int) = List.map StackValue.Integer [10, 20] ∧
      (seedStack ([10, 20] : List Int)).head?
        = Option.map StackValue.Integer (([10, 20] : List Int)).head?) :=
  ⟨by decide, apply_seeds_stack_reversed _ _ (by decide)⟩

/-- C5 counterexample: the claim states the arity-2 program [Sub] applied
to [2, 1] returns 1; in fact the first argument 2 is seeded on TOP, so Sub
pops v1 = 2, v2 = 1 and pushes v2 - v1 = -1, not 1. -/
theorem sub_program_two_one_not_one :
    Program.apply (Program.new 2 [Command.BuiltIn BuiltIn.Sub]) [2, 1] ≠ Res.ok 1 := by
  intro h
  rw [show Program.apply (Program.new 2 [Command.BuiltIn BuiltIn.Sub]) [2, 1]
        = Res.ok (-1) from by set_option maxRecDepth 10000 in rfl] at h
  simp at h

/-- C5 amended: the arity-2 program [Sub] applied to [2, 1] returns -1
(= 1 - 2, since the first argument is on top when Sub pops v1 then v2 and
pushes v2 - v1). -/
theorem sub_program_two_one_returns_neg_one :
    Program.apply (Program.new 2 [Command.BuiltIn BuiltIn.Sub]) [2, 1] = Res.ok (-1) := by
  set_option maxRecDepth 10000 in rfl

/-- C6: when the body fold succeeds with stack s, Program.apply pops
exactly one value from s: empty s gives NotEnoughValues, a quoted sequence
on top gives FinalValueNotAnInteger, an Integer on top is returned, and in
the two `:: _` arms any residual values below the popped one are discarded
without error. -/
theorem apply_pops_exactly_one_result (p : Program) (args : List Int) (s : Stack)
    (h : p.num_args = args.length)
    (hev : evaluate (seedStack args) p.commands = Res.ok s) :
    (s = [] →
      Program.apply p args
        = Res.err (TopLevel.Error.ProgramError Program.Error.NotEnoughValues)) ∧
    (∀ (value : Int) (rest : Stack), s = StackValue.Integer value :: rest →
      Program.apply p args = Res.ok value) ∧
    (∀ (inner : List Command) (rest : Stack),
      s = StackValue.ExecutableSequence inner :: rest →
      Program.apply p args
        = Res.err (TopLevel.Error.ProgramError Program.Error.FinalValueNotAnInteger)) := by
  refine ⟨?_, ?_, ?_⟩
  · intro hs
    subst hs
    unfold Program.apply
    rw [if_neg (fun hc => hc h), hev]
    rfl
  · intro value rest hs
    subst hs
    unfold Program.apply
    rw [if_neg (fun hc => hc h), hev]
    rfl
  · intro inner rest hs
    subst hs
    unfold Program.apply
    rw [if_neg (fun hc => hc h), hev]
    rfl

/-- Witness for C6 at a concrete input: empty body, two seeded arguments;
the top seed 5 is returned and the residual 7 causes no error. -/
theorem apply_pops_exactly_one_result_witness :
    (Program.new 2 []).num_args = ([5, 7] : List Int).length ∧
    evaluate (seedStack [5, 7]) [] = Res.ok [StackValue.Integer 5, StackValue.Integer 7] ∧
    Program.apply (Program.new 2 []) [5, 7] = Res.ok 5 :=
  ⟨by decide, by decide,
    (apply_pops_exactly_one_result (Program.new 2 []) [5, 7]
        [StackValue.Integer 5, StackValue.Integer 7] (by decide) (by decide)).2.1
      5 [StackValue.Integer 7] rfl⟩

/-- C7: Sel pops v1 (top), v2, v3; with v3 an Integer it pushes v1 when
v3 = 0 and v2 otherwise, and with v3 a quoted sequence it fails with
NotANumber; the two concrete conjuncts are the spec's examples
apply_builtin([0,2,3], Sel) = [3] and apply_builtin([1,2,3], Sel) = [2]
(stacks written bottom→top there, head-is-top lists here). -/
theorem sel_semantics :
    (∀ (v1 v2 : StackValue) (n : Int) (rest : Stack),
      Program.apply_builtin (v1 :: v2 :: StackValue.Integer n :: rest) BuiltIn.Sel
        = Res.ok ((if n = 0 then v1 else v2) :: rest)) ∧
    (∀ (v1 v2 : StackValue) (inner : List Command) (rest : Stack),
      Program.apply_builtin (v1 :: v2 :: StackValue.ExecutableSequence inner :: rest) BuiltIn.Sel
        = Res.err Program.Error.NotANumber) ∧
    Program.apply_builtin [StackValue.Integer 3, StackValue.Integer 2, StackValue.Integer 0]
        BuiltIn.Sel = Res.ok [StackValue.Integer 3] ∧
    Program.apply_builtin [StackValue.Integer 3, StackValue.Integer 2, StackValue.Integer 1]
        BuiltIn.Sel = Res.ok [StackValue.Integer 2] := by
  refine ⟨?_, ?_, by decide, by decide⟩
  · intro v1 v2 n rest
    by_cases h0 : n = 0 <;>
      simp [Program.apply_builtin, apply_builtin_nx, Stack.pop, Res.bind,
        StackValue.into_integer, Stack.push, h0]
  · intro v1 v2 inner rest
    simp [Program.apply_builtin, apply_builtin_nx, Stack.pop, Res.bind,
      StackValue.into_integer]

/-- C8: Exec pops the top value, fails with NotAnExecutableSequence when it
is an Integer, and otherwise folds the popped sequence's commands over the
SAME remaining stack using the same fold `evaluate` used for program
bodies; the concrete conjunct is the spec's example
exec over [3, ExecutableSequence([Integer(2), Mul])] = [6]. -/
theorem exec_semantics :
    (∀ (n : Int) (rest : Stack),
      Program.apply_builtin (StackValue.Integer n :: rest) BuiltIn.Exec
        = Res.err Program.Error.NotAnExecutableSequence) ∧
    (∀ (inner : List Command) (rest : Stack),
      Program.apply_builtin (StackValue.ExecutableSequence inner :: rest) BuiltIn.Exec
        = evaluate rest inner) ∧
    Program.apply_builtin
        [StackValue.ExecutableSequence [Command.Integer 2, Command.BuiltIn BuiltIn.Mul],
          StackValue.Integer 3] BuiltIn.Exec
      = Res.ok [StackValue.Integer 6] := by
  refine ⟨?_, ?_, ?_⟩
  · intro n rest
    simp [Program.apply_builtin, Stack.pop, Res.bind, StackValue.into_ex_seq]
  · intro inner rest
    simp [Program.apply_builtin, Stack.pop, Res.bind, StackValue.into_ex_seq,
      Stack.exec, evaluate_eq_run]
  · show Stack.exec [StackValue.Integer 3] [Command.Integer 2, Command.BuiltIn BuiltIn.Mul]
      = Res.ok [StackValue.Integer 6]
    unfold Stack.exec
    rw [← evaluate_eq_run]
    set_option maxRecDepth 20000 in decide

/-- C9: a request whose processing returns an error leaves the registry
exactly as it was: a failing Call performs no insertion/removal/update
(first conjunct, over TopLevel::apply), and a request that fails to parse
via TopLevelCommand::read reaches the error-rendering branch of
TopLevel::interpret with the registry untouched (second conjunct). -/
theorem failing_request_preserves_registry :
    (∀ (t t2 : TopLevel) (cmd : TopLevelCommand) (e : TopLevel.Error),
      TopLevel.apply t cmd = (t2, Res.err e) → t2 = t) ∧
    (∀ (t : TopLevel) (exprs : List SExp) (e : TopLevel.Error),
      TopLevelCommand.read exprs = Res.err e →
      TopLevel.interpret t (SExp.List exprs)
        = Res.ok (t, some ("Error: " ++ e.debugFmt))) := by
  constructor
  · intro t t2 cmd e h
    cases cmd with
    | Def name num_args commands => simp [TopLevel.apply] at h
    | Call name args =>
      simp only [TopLevel.apply] at h
      split at h
      · injection h with h1 h2
        exact h1.symm
      · split at h
        · injection h with h1 h2
          simp at h2
        · injection h with h1 h2
          exact h1.symm
        · injection h with h1 h2
          simp at h2
  · intro t exprs e h
    simp [TopLevel.interpret, h]

/-- Witness for C9: the failing Call "nonesuch" on the fresh registry, and
the empty-list request, both leave the registry equal to TopLevel.new. -/
theorem failing_request_preserves_registry_witness :
    TopLevel.apply TopLevel.new (TopLevelCommand.Call ("nonesuch") [])
      = (TopLevel.new, Res.err (TopLevel.Error.ProgramNotFound ("nonesuch"))) ∧
    TopLevel.new = TopLevel.new ∧
    TopLevelCommand.read [] = Res.err (TopLevel.Error.NotEnoughArgs ("()")) ∧
    TopLevel.interpret TopLevel.new (SExp.List [])
      = Res.ok (TopLevel.new,
          some ("Error: " ++ (TopLevel.Error.NotEnoughArgs ("()")).debugFmt)) :=
  ⟨rfl,
    failing_request_preserves_registry.1 TopLevel.new TopLevel.new
      (TopLevelCommand.Call ("nonesuch") []) (TopLevel.Error.ProgramNotFound ("nonesuch")) rfl,
    rfl,
    failing_request_preserves_registry.2 TopLevel.new [] (TopLevel.Error.NotEnoughArgs ("()")) rfl⟩

/-- C10: TopLevel::new registers exactly seven wrapper programs — add, sub,
mul, div, eq, lt, gt — each of arity 2 with the single corresponding
built-in as body, and registers nothing under rem, exec, nget, sel, pop or
swap. -/
theorem new_registry_seven_wrappers :
    TopLevel.new.programs.length = 7 ∧
    Registry.get TopLevel.new.programs ("add")
      = some (Program.new 2 [Command.BuiltIn BuiltIn.Add]) ∧
    Registry.get TopLevel.new.programs ("sub")
      = some (Program.new 2 [Command.BuiltIn BuiltIn.Sub]) ∧
    Registry.get TopLevel.new.programs ("mul")
      = some (Program.new 2 [Command.BuiltIn BuiltIn.Mul]) ∧
    Registry.get TopLevel.new.programs ("div")
      = some (Program.new 2 [Command.BuiltIn BuiltIn.Div]) ∧
    Registry.get TopLevel.new.programs ("eq")
      = some (Program.new 2 [Command.BuiltIn BuiltIn.Eq]) ∧
    Registry.get TopLevel.new.programs ("lt")
      = some (Program.new 2 [Command.BuiltIn BuiltIn.Lt]) ∧
    Registry.get TopLevel.new.programs ("gt")
      = some (Program.new 2 [Command.BuiltIn BuiltIn.Gt]) ∧
    Registry.get TopLevel.new.programs ("rem") = none ∧
    Registry.get TopLevel.new.programs ("exec") = none ∧
    Registry.get TopLevel.new.programs ("nget") = none ∧
    Registry.get TopLevel.new.programs ("sel") = none ∧
    Registry.get TopLevel.new.programs ("pop") = none ∧
    Registry.get TopLevel.new.programs ("swap") = none := by
  refine ⟨?_, ?_, ?_, ?_, ?_, ?_, ?_, ?_, ?_, ?_, ?_, ?_, ?_, ?_⟩ <;>
    set_option maxRecDepth 20000 in decide
